import Mathlib

set_option maxHeartbeats 1000000

namespace ProcurePilot

mutual

/-- Python-like JSON-ish value tree: None, strings, booleans, lists and
string-keyed mappings (insertion ordered). -/
inductive PyVal where
  | pynone
  | str (s : String)
  | pybool (b : Bool)
  | list (xs : PyListV)
  | dict (kvs : PyFields)
deriving DecidableEq

inductive PyListV where
  | nil
  | cons (x : PyVal) (xs : PyListV)
deriving DecidableEq

inductive PyFields where
  | nil
  | cons (k : String) (v : PyVal) (rest : PyFields)
deriving DecidableEq

end

mutual

/-- The method `_clean_nulls` (source lines 367-376): recursively replace `None` with
the string `"null"`, mapping over dict values and list elements. -/
def clean_nulls : PyVal → PyVal
  | .pynone => .str "null"
  | .str s => .str s
  | .pybool b => .pybool b
  | .list xs => .list (cleanElems xs)
  | .dict kvs => .dict (cleanFields kvs)

def cleanElems : PyListV → PyListV
  | .nil => .nil
  | .cons x xs => .cons (clean_nulls x) (cleanElems xs)

def cleanFields : PyFields → PyFields
  | .nil => .nil
  | .cons k v rest => .cons k (clean_nulls v) (cleanFields rest)

end

mutual

/-- Does a value contain a native `None` anywhere? -/
def hasNone : PyVal → Bool
  | .pynone => true
  | .str _ => false
  | .pybool _ => false
  | .list xs => elemsHaveNone xs
  | .dict kvs => fieldsHaveNone kvs

def elemsHaveNone : PyListV → Bool
  | .nil => false
  | .cons x xs => hasNone x || elemsHaveNone xs

def fieldsHaveNone : PyFields → Bool
  | .nil => false
  | .cons _ v rest => hasNone v || fieldsHaveNone rest

end

/-- Build a `PyListV` from an ordinary list of values. -/
def PyListV.ofList : List PyVal → PyListV
  | [] => .nil
  | x :: xs => .cons x (PyListV.ofList xs)

/-- Build a `PyFields` mapping from an ordinary association list. -/
def PyFields.ofList : List (String × PyVal) → PyFields
  | [] => .nil
  | (k, v) :: rest => .cons k v (PyFields.ofList rest)

/-- Look a key up in a `PyFields` mapping (first occurrence wins, as in a
Python dict whose keys are unique). -/
def findField : PyFields → String → Option PyVal
  | .nil, _ => none
  | .cons k v rest, needle => if k = needle then some v else findField rest needle

/-- `d[key]` on a Python dict value. -/
def getKey (v : PyVal) (k : String) : Option PyVal :=
  match v with
  | .dict kvs => findField kvs k
  | _ => none

/-- `d[key] = val` on a Python dict represented as an association list:
replaces the value in place, preserving insertion order. -/
def updateKey : List (String × PyVal) → String → PyVal → List (String × PyVal)
  | [], _, _ => []
  | (k, v) :: rest, needle, newv =>
    if k = needle then (k, newv) :: rest else (k, v) :: updateKey rest needle newv

/-- Embed `Optional[str]` into `PyVal`. -/
def optStr : Option String → PyVal
  | none => .pynone
  | some s => .str s

/-- Embed `Optional[bool]` into `PyVal`. -/
def optBool : Option Bool → PyVal
  | none => .pynone
  | some b => .pybool b

/-! ### String helpers (Python `in`, `lower`, substring scans)

Python `\d`, `\s`, `[A-Za-z]` and `str.lower`/`str.strip` are modelled with
`Char.isDigit`, `Char.isWhitespace`, `Char.isAlpha` and `Char.toLower`,
which agree with Python on ASCII input. -/

/-- Python `str.lower()`, character by character (ASCII-faithful). -/
def strLower (s : String) : String :=
  String.mk (s.toList.map Char.toLower)

/-- Python `str.strip()`: drop leading and trailing whitespace
(ASCII-faithful via `Char.isWhitespace`). -/
def pyStrip (s : String) : String :=
  String.mk (((s.toList.dropWhile Char.isWhitespace).reverse.dropWhile Char.isWhitespace).reverse)

/-- Python `s[:n]` character slicing. -/
def pyTake (s : String) (n : Nat) : String :=
  String.mk (s.toList.take n)

/-- Does `needle` occur as a contiguous run inside `hay`?  Models the Python
substring test `needle in hay`. -/
def subOccurs (needle : List Char) : List Char → Bool
  | [] => needle.isEmpty
  | c :: t => needle.isPrefixOf (c :: t) || subOccurs needle t

/-- Python `needle in hay` on strings. -/
def strContains (hay needle : String) : Bool :=
  subOccurs needle.toList hay.toList

/-- Python `any(term in hay for term in terms)`. -/
def anyTerm (hay : String) (terms : List String) : Bool :=
  terms.any (fun t => strContains hay t)

/-! ### Document classification (source lines 195-212) -/

/-- `detect_document_type`: lower-case the text and test keyword groups in a
fixed order, returning the first matching label. -/
def detect_document_type (text : String) : String :=
  let text_lower := strLower text
  if anyTerm text_lower ["pre-qualification", "prequalification", "pq form", "turnover"] then
    "PQ_FORM"
  else if anyTerm text_lower ["impairment", "asset impairment"] then
    "IMPAIRMENT_FORM"
  else if strContains text_lower "invoice" then
    "INVOICE"
  else if anyTerm text_lower ["purchase order", "p.o.", "po number"] then
    "PURCHASE_ORDER"
  else if anyTerm text_lower ["delivery note", "delivery report", "goods received"] then
    "DELIVERY_NOTE"
  else if anyTerm text_lower ["vendor", "supplier", "onboarding"] then
    "VENDOR_ONBOARDING"
  else
    "UNKNOWN"

/-- The ordered keyword-group rules of the classifier, as the spec states
them: each group paired with its label, earlier groups taking priority. -/
def docTypeRules : List (List String × String) :=
  [ (["pre-qualification", "prequalification", "pq form", "turnover"], "PQ_FORM"),
    (["impairment", "asset impairment"], "IMPAIRMENT_FORM"),
    (["invoice"], "INVOICE"),
    (["purchase order", "p.o.", "po number"], "PURCHASE_ORDER"),
    (["delivery note", "delivery report", "goods received"], "DELIVERY_NOTE"),
    (["vendor", "supplier", "onboarding"], "VENDOR_ONBOARDING") ]

/-- Spec-side classifier: return the label of the first rule whose keyword
group has a member occurring in the (already lower-cased) text, and
`"UNKNOWN"` when no group matches. -/
def firstRuleLabel (text_lower : String) : List (List String × String) → String
  | [] => "UNKNOWN"
  | (terms, label) :: rest =>
    if terms.any (fun t => strContains text_lower t) then label
    else firstRuleLabel text_lower rest

/-! ### Currency normalization (source lines 173-185)

Python `float(...)` and `str(float(...))` are IEEE-754 double operations
that have no exact shallow embedding; they are abstracted as a pair of
functions `pyFloat` (parse, `none` models a raised `ValueError`) and
`pyStr` (decimal rendering) over exact rationals.  Theorems that need
facts about Python floats take them as hypotheses (e.g. the documented
repr round-trip guarantee `float(str(x)) == x`). -/

/-- Abstract model of Python `float` parsing and `str` rendering. -/
structure FloatModel where
  pyFloat : String → Option ℚ
  pyStr : ℚ → String

/-- The character class kept by the first cleaning step
`re.sub(r'[^\d.,\-]', '', s)`. -/
def keepCur (c : Char) : Bool :=
  c.isDigit || c = '.' || c = ',' || c = '-'

/-- The cleaned string fed to `float`: drop every character outside
digits, period, comma, minus, then drop commas (`.replace(',', '')`). -/
def cleanedCurrency (s : String) : String :=
  String.mk ((s.toList.filter keepCur).filter (fun c => c ≠ ','))

/-- `normalize_currency`: empty input is falsy and yields `None`; otherwise
clean the string and return `str(float(cleaned))`, or `None` when `float`
raises. -/
def normalize_currency (fm : FloatModel) (amount_str : String) : Option String :=
  if amount_str = "" then none
  else
    match fm.pyFloat (cleanedCurrency amount_str) with
    | some v => some (fm.pyStr v)
    | none => none

/-- `normalize_currency` applied to a possibly-`None` table cell: Python
`None` is falsy, so it yields `None` directly. -/
def cellCurrency (fm : FloatModel) : Option String → Option String
  | none => none
  | some s => normalize_currency fm s

/-- Claim-side grammar: strings consisting only of digits,
thousands-separator commas and at most one decimal point, with at least
one digit.  Every properly comma-grouped digit string satisfies this. -/
def isCommaNumber (s : String) : Bool :=
  s.toList.all (fun c => c.isDigit || c = ',' || c = '.') &&
  s.toList.any (fun c => c.isDigit) &&
  (s.toList.filter (fun c => c = '.')).length ≤ 1

/-- Strings of digits with at most one decimal point and at least one
digit: exactly the comma-free shapes Python `float` is guaranteed to
accept among the cleaned inputs considered here. -/
def plainDecimal (s : String) : Bool :=
  s.toList.all (fun c => c.isDigit || c = '.') &&
  s.toList.any (fun c => c.isDigit) &&
  (s.toList.filter (fun c => c = '.')).length ≤ 1

/-! ### Date normalization (source lines 144-171)

The four `re.search` patterns are hand-rolled as leftmost-match scanners
over the character list; each `pNAt` function decides whether the pattern
matches at the head of the list (exactly the work the regex engine does at
one start position, including the only backtracking any of these patterns
can perform, namely `\d{1,2}` trying two digits before one). -/

/-- Try pattern `(\d{4})-(\d{2})-(\d{2})` at the start of the list,
returning `group(0)` on success. -/
def p1At : List Char → Option String
  | a :: b :: c :: d :: e :: f :: g :: h :: i :: j :: _ =>
    if a.isDigit && b.isDigit && c.isDigit && d.isDigit && e = '-' &&
       f.isDigit && g.isDigit && h = '-' && i.isDigit && j.isDigit then
      some (String.mk [a, b, c, d, e, f, g, h, i, j])
    else none
  | _ => none

/-- Try pattern `(\d{2})/(\d{2})/(\d{4})` at the start of the list,
returning the groups `(day, month, year)`. -/
def p2At : List Char → Option (String × String × String)
  | a :: b :: c :: d :: e :: f :: g :: h :: i :: j :: _ =>
    if a.isDigit && b.isDigit && c = '/' && d.isDigit && e.isDigit && f = '/' &&
       g.isDigit && h.isDigit && i.isDigit && j.isDigit then
      some (String.mk [a, b], String.mk [d, e], String.mk [g, h, i, j])
    else none
  | _ => none

/-- Try pattern `(\d{2})-(\d{2})-(\d{4})` at the start of the list,
returning the groups `(day, month, year)`. -/
def p3At : List Char → Option (String × String × String)
  | a :: b :: c :: d :: e :: f :: g :: h :: i :: j :: _ =>
    if a.isDigit && b.isDigit && c = '-' && d.isDigit && e.isDigit && f = '-' &&
       g.isDigit && h.isDigit && i.isDigit && j.isDigit then
      some (String.mk [a, b], String.mk [d, e], String.mk [g, h, i, j])
    else none
  | _ => none

/-- Tail of pattern `(\d{1,2})\s+([A-Za-z]+)\s+(\d{4})` after the day
digits: `\s+`, `[A-Za-z]+`, `\s+`, `\d{4}`.  All three repetitions are
over pairwise disjoint character classes, so greedy matching without
backtracking is exact. -/
def p4Tail (day : List Char) (l : List Char) : Option (String × String × String) :=
  let ws1 := l.takeWhile Char.isWhitespace
  let l2 := l.dropWhile Char.isWhitespace
  if ws1.isEmpty then none
  else
    let letters := l2.takeWhile Char.isAlpha
    let l3 := l2.dropWhile Char.isAlpha
    if letters.isEmpty then none
    else
      let ws2 := l3.takeWhile Char.isWhitespace
      let l4 := l3.dropWhile Char.isWhitespace
      if ws2.isEmpty then none
      else
        match l4 with
        | y1 :: y2 :: y3 :: y4 :: _ =>
          if y1.isDigit && y2.isDigit && y3.isDigit && y4.isDigit then
            some (String.mk day, String.mk letters, String.mk [y1, y2, y3, y4])
          else none
        | _ => none

/-- Try pattern `(\d{1,2})\s+([A-Za-z]+)\s+(\d{4})` at the start of the
list, returning the groups `(day, monthName, year)`.  `\d{1,2}` greedily
takes two digits when available; its one-digit fallback can never succeed
when the two-digit attempt fails, because the next character is then a
digit and cannot match `\s`. -/
def p4At : List Char → Option (String × String × String)
  | [] => none
  | d1 :: rest =>
    if d1.isDigit then
      match rest with
      | [] => none
      | d2 :: rest2 =>
        if d2.isDigit then p4Tail [d1, d2] rest2 else p4Tail [d1] rest
    else none

/-- Leftmost-search driver: try the single-position matcher `f` at every
start position from left to right, as `re.search` does. -/
def searchFirst {α : Type} (f : List Char → Option α) : List Char → Option α
  | [] => f []
  | c :: t =>
    match f (c :: t) with
    | some r => some r
    | none => searchFirst f t

/-- Does the single-position matcher `f` succeed anywhere with a result
satisfying `p`? -/
def existsMatch {α : Type} (f : List Char → Option α) (p : α → Bool) : List Char → Bool
  | [] => (match f [] with | some r => p r | none => false)
  | c :: t =>
    (match f (c :: t) with | some r => p r | none => false) || existsMatch f p t

/-- The month table behind `datetime.strptime(month_str[:3], '%b')`: the
first three characters, lower-cased, must be an English month
abbreviation (strptime matches `%b` case-insensitively). -/
def monthNum (s : String) : Option Nat :=
  match strLower (String.mk (s.toList.take 3)) with
  | "jan" => some 1
  | "feb" => some 2
  | "mar" => some 3
  | "apr" => some 4
  | "may" => some 5
  | "jun" => some 6
  | "jul" => some 7
  | "aug" => some 8
  | "sep" => some 9
  | "oct" => some 10
  | "nov" => some 11
  | "dec" => some 12
  | _ => none

/-- Python `str.zfill(2)` on the digit strings appearing here: pad on the
left with zeros to width 2. -/
def zfill2 (s : String) : String :=
  if s.length < 2 then String.mk (List.replicate (2 - s.length) '0') ++ s else s

/-- `normalize_date`: falsy or `"null"` input yields `None`; otherwise the
four patterns are tried in order on the whole string via `re.search`.
Pattern 1 returns `group(0)` verbatim; patterns 2 and 3 rearrange the
groups; pattern 4 additionally parses the month name, and a strptime
failure falls through (`continue`) past the last pattern to `None`. -/
def normalize_date (date_str : String) : Option String :=
  if date_str = "" || date_str = "null" then none
  else
    match searchFirst p1At date_str.toList with
    | some g0 => some g0
    | none =>
      match searchFirst p2At date_str.toList with
      | some (day, month, year) => some (year ++ "-" ++ zfill2 month ++ "-" ++ zfill2 day)
      | none =>
        match searchFirst p3At date_str.toList with
        | some (day, month, year) => some (year ++ "-" ++ zfill2 month ++ "-" ++ zfill2 day)
        | none =>
          match searchFirst p4At date_str.toList with
          | some (day, month_str, year) =>
            match monthNum month_str with
            | some month => some (year ++ "-" ++ zfill2 (toString month) ++ "-" ++ zfill2 day)
            | none => none
          | none => none

/-- A string of the shape `YYYY-MM-DD`: exactly ten characters, digits in
the date positions and dashes between them. -/
def isISOform (s : String) : Bool :=
  match s.toList with
  | [a, b, c, d, e, f, g, h, i, j] =>
    a.isDigit && b.isDigit && c.isDigit && d.isDigit && e = '-' &&
    f.isDigit && g.isDigit && h = '-' && i.isDigit && j.isDigit
  | _ => false

/-! ### Turnover extraction (source lines 236-257)

The two `re.finditer` sweeps use the patterns
`(\d{4})[:\s]+[^\d]*?([\d,\.]+)` and `year[:\s]+(\d{4})[^\d]*?([\d,\.]+)`
(the second effectively case-insensitive on `year`).  Both are modelled as
single-position matchers plus a fueled non-overlapping left-to-right scan;
the fuel `length + 1` is always sufficient because every match and every
failed position consumes at least one character. -/

/-- The class `[\d,\.]` of the amount group. -/
def classB (c : Char) : Bool :=
  c.isDigit || c = ',' || c = '.'

/-- The class `[:\s]` of the separator run. -/
def isColonWs (c : Char) : Bool :=
  c = ':' || c.isWhitespace

/-- The lazy `[^\d]*?` followed by the greedy group `([\d,\.]+)`: consume
non-digit characters one at a time until the first character of class
`[\d,\.]` (the lazy minimum), then take the maximal run of that class as
the group, returning the group and the remainder after the match. -/
def lazyThenB : List Char → Option (String × List Char)
  | [] => none
  | c :: t =>
    if classB c then
      some (String.mk ((c :: t).takeWhile classB), (c :: t).dropWhile classB)
    else lazyThenB t

/-- Try `(\d{4})[:\s]+[^\d]*?([\d,\.]+)` at the start of the list,
returning `(year, amountGroup, remainderAfterMatch)`.  Shortening the
greedy `[:\s]+` run can never rescue a failure, since the surrendered
characters are non-digits outside `[\d,\.]` and would be re-consumed by
the lazy part. -/
def paAt : List Char → Option (String × String × List Char)
  | y1 :: y2 :: y3 :: y4 :: rest =>
    if y1.isDigit && y2.isDigit && y3.isDigit && y4.isDigit then
      let sep := rest.takeWhile isColonWs
      if sep.isEmpty then none
      else
        match lazyThenB (rest.dropWhile isColonWs) with
        | some (g, after) => some (String.mk [y1, y2, y3, y4], g, after)
        | none => none
    else none
  | _ => none

/-- Try `year[:\s]+(\d{4})[^\d]*?([\d,\.]+)` (with `re.IGNORECASE`) at the
start of the list, returning `(year, amountGroup, remainderAfterMatch)`. -/
def pbAt : List Char → Option (String × String × List Char)
  | c1 :: c2 :: c3 :: c4 :: rest =>
    if c1.toLower = 'y' && c2.toLower = 'e' && c3.toLower = 'a' && c4.toLower = 'r' then
      let sep := rest.takeWhile isColonWs
      if sep.isEmpty then none
      else
        match rest.dropWhile isColonWs with
        | d1 :: d2 :: d3 :: d4 :: rest2 =>
          if d1.isDigit && d2.isDigit && d3.isDigit && d4.isDigit then
            match lazyThenB rest2 with
            | some (g, after) => some (String.mk [d1, d2, d3, d4], g, after)
            | none => none
          else none
        | _ => none
    else none
  | _ => none

/-- Fueled `re.finditer` core: at each position try the matcher; on a match
record the captured groups and continue after the match (non-overlapping),
otherwise advance one character. -/
def finditerAux (f : List Char → Option (String × String × List Char)) :
    Nat → List Char → List (String × String)
  | 0, _ => []
  | _ + 1, [] => []
  | fuel + 1, c :: t =>
    match f (c :: t) with
    | some (y, a, after) => (y, a) :: finditerAux f fuel after
    | none => finditerAux f fuel t

/-- `re.finditer` over a whole character list. -/
def finditer (f : List Char → Option (String × String × List Char)) (l : List Char) :
    List (String × String) :=
  finditerAux f (l.length + 1) l

/-- One turnover entry: `{"year": ..., "amount": ...}`. -/
structure TEntry where
  year : String
  amount : String
deriving DecidableEq

/-- `extract_turnover`: run both sweeps over the text in order, keep a
match only when its amount group passes currency normalization to a truthy
(non-empty) string, and truncate to the first three entries. -/
def extract_turnover (fm : FloatModel) (text : String) : List TEntry :=
  let step : List TEntry → String × String → List TEntry := fun acc m =>
    match normalize_currency fm m.2 with
    | some amount => if amount = "" then acc else acc ++ [⟨m.1, amount⟩]
    | none => acc
  (((finditer paAt text.toList ++ finditer pbAt text.toList).foldl step []).take 3)

/-- Claim-side description of the kept turnover entries before truncation:
the matches of both sweeps in scan/append order, filtered to those whose
amount normalizes to a truthy string. -/
def turnoverKept (fm : FloatModel) (text : String) : List TEntry :=
  (finditer paAt text.toList ++ finditer pbAt text.toList).filterMap (fun m =>
    match normalize_currency fm m.2 with
    | some amount => if amount = "" then none else some ⟨m.1, amount⟩
    | none => none)

/-! ### Eligibility check (source lines 259-276) -/

/-- The eligibility record `{"is_eligible": ..., "reason": ...}`. -/
structure Eligibility where
  is_eligible : Option Bool
  reason : String
deriving DecidableEq

/-- `sum(float(t.get("amount", 0)) for t in turnover)`: every extracted
entry carries an `amount` string; `none` models the `ValueError` raised by
`float` on an unparseable amount, which the caller does not catch. -/
def sumAmounts (fm : FloatModel) : List TEntry → Option ℚ
  | [] => some 0
  | t :: ts =>
    match fm.pyFloat t.amount with
    | none => none
    | some v =>
      match sumAmounts fm ts with
      | none => none
      | some rest => some (v + rest)

/-- `check_eligibility`: an absent or empty turnover list is falsy and the
defaults `(None, "")` are returned; otherwise the amounts are summed and
compared against the fixed threshold 1,000,000. -/
def check_eligibility (fm : FloatModel) (turnover : Option (List TEntry)) :
    Except String Eligibility :=
  match turnover with
  | none => .ok ⟨none, ""⟩
  | some [] => .ok ⟨none, ""⟩
  | some (t :: ts) =>
    match sumAmounts fm (t :: ts) with
    | none => .error "ValueError: could not convert string to float"
    | some total_turnover =>
      if 1000000 ≤ total_turnover then
        .ok ⟨some true, "Meets minimum turnover requirement"⟩
      else
        .ok ⟨some false, "Below minimum turnover threshold"⟩

/-! ### Line items (source lines 214-234) -/

/-- A table row as pdfplumber yields it: cells may be `None`. -/
abbrev Row := List (Option String)

/-- A pdfplumber table: a list of rows, the first being the header. -/
abbrev Table := List Row

/-- One extracted line item. -/
structure LineItem where
  description : Option String
  quantity : Option String
  unit_price : Option String
  amount : Option String
deriving DecidableEq

/-- The item built from one data row (only called on rows with at least
three cells): description verbatim, the numeric cells through currency
normalization, each guarded by the row length exactly as in the source. -/
def rowItem (fm : FloatModel) (row : Row) : LineItem where
  description := if 0 < row.length then row.getD 0 none else none
  quantity := if 1 < row.length then cellCurrency fm (row.getD 1 none) else none
  unit_price := if 2 < row.length then cellCurrency fm (row.getD 2 none) else none
  amount := if 3 < row.length then cellCurrency fm (row.getD 3 none) else none

/-- `extract_line_items`: for each table with at least two rows, every row
after the header with at least three cells becomes one item, appended in
order.  The `text` argument is unused, as in the source; the final
`line_items if line_items else []` is the identity on lists. -/
def extract_line_items (fm : FloatModel) (text : String) (tables : List Table) :
    List LineItem :=
  tables.foldl (fun acc table =>
    if table.length < 2 then acc
    else
      (table.drop 1).foldl (fun acc2 row =>
        if 3 ≤ row.length then acc2 ++ [rowItem fm row] else acc2) acc) []

/-- Claim-side item for a data row, written from the claim: description is
the first cell verbatim, quantity and unit price are the currency-normalized
second and third cells, and the amount is absent when the row has only
three cells, otherwise the currency-normalized fourth cell. -/
def rowItemSpec (fm : FloatModel) (row : Row) : LineItem where
  description := row.getD 0 none
  quantity := cellCurrency fm (row.getD 1 none)
  unit_price := cellCurrency fm (row.getD 2 none)
  amount := if row.length ≤ 3 then none else cellCurrency fm (row.getD 3 none)

/-- Claim-side line-item extraction: tables with fewer than two rows
contribute nothing; otherwise the header row is dropped and every data row
with at least three cells yields exactly one item. -/
def lineItemsSpec (fm : FloatModel) (tables : List Table) : List LineItem :=
  tables.flatMap (fun table =>
    if table.length < 2 then []
    else (table.drop 1).filterMap (fun row =>
      if 3 ≤ row.length then some (rowItemSpec fm row) else none))

/-! ### pdfplumber extraction (source lines 48-89)

The external pdfplumber library is modelled by the per-page data it
returns: each page yields an optional text and a list of tables.  A
missing file or a library exception during open/parse leaves the result at
its initial empty state with `success = False`. -/

/-- One page as seen through pdfplumber. -/
structure Page where
  text : Option String
  tables : List Table

/-- The environment of one `extract_with_pdfplumber` call. -/
structure PlumberEnv where
  fileExists : Bool
  openError : Bool
  pages : List Page

/-- The `extracted_data` dict of `extract_with_pdfplumber`. -/
structure PlumberResult where
  text : String
  tables : List Table
  success : Bool

/-- `extract_with_pdfplumber`: join the truthy page texts with newlines,
concatenate the per-page table lists (extended only when truthy, which is
the same list either way), and declare success exactly when the stripped
text is longer than the threshold 20. -/
def extract_with_pdfplumber (penv : PlumberEnv) : PlumberResult :=
  if penv.fileExists = false then ⟨"", [], false⟩
  else if penv.openError then ⟨"", [], false⟩
  else
    let all_text := penv.pages.foldl (fun acc p =>
      match p.text with
      | some t => if t = "" then acc else acc ++ [t]
      | none => acc) []
    let all_tables := penv.pages.foldl (fun acc p =>
      if p.tables.isEmpty then acc else acc ++ p.tables) []
    let text := String.intercalate "\n" all_text
    ⟨text, all_tables, decide (20 < (pyStrip text).length)⟩

/-! ### Donut fallback extraction (source lines 34-46 and 91-142)

The external vision stack is modelled by its observable outcomes: whether
the optional dependency imported, what loading the pretrained model does
(`load_donut_model` is called before the `try` block), what rasterizing
page 1 yields, and what the processor/generate/decode composite yields for
an image.  `Except.error` models a raised exception. -/

/-- The environment of one `extract_with_donut` call. -/
structure DonutEnv where
  donutAvailable : Bool
  loadModel : Except String Unit
  convertFromPath : Except String (List Nat)
  inference : Nat → Except String String
  eosToken : String
  padToken : String

/-- The `extracted_data` dict of `extract_with_donut`. -/
structure DonutResult where
  text : String
  success : Bool
deriving DecidableEq

/-- The body of the `try` block in `extract_with_donut`: rasterize page 1
(an empty image list returns the empty failed result), run inference on
the first image, strip the eos and pad tokens, and report success. -/
def donutTryBody (denv : DonutEnv) : Except String DonutResult :=
  match denv.convertFromPath with
  | .error e => .error e
  | .ok [] => .ok ⟨"", false⟩
  | .ok (image :: _) =>
    match denv.inference image with
    | .error e => .error e
    | .ok sequence =>
      .ok ⟨(sequence.replace denv.eosToken "").replace denv.padToken "", true⟩

/-- `extract_with_donut`: an unavailable dependency short-circuits to the
empty failed result; then `load_donut_model()` runs outside the `try`
block, so a loading failure propagates; finally any exception inside the
`try` block is caught and converted to the empty failed result. -/
def extract_with_donut (denv : DonutEnv) : Except String DonutResult :=
  if denv.donutAvailable = false then .ok ⟨"", false⟩
  else
    match denv.loadModel with
    | .error e => .error e
    | .ok _ =>
      match donutTryBody denv with
      | .ok r => .ok r
      | .error _ => .ok ⟨"", false⟩

/-! ### The main pipeline (source lines 278-365)

`extract_field` applies an ordered regex pattern list through the external
`re` engine; the claims settled here hold for every behavior of those
per-field extractions, so they are abstracted as one oracle function per
pattern list (vendor, tax, invoice, PO, date, total). -/

/-- Abstract per-field results of `extract_field` on the raw text. -/
structure Oracle where
  vendor : String → Option String
  tax : String → Option String
  invoice : String → Option String
  po : String → Option String
  date : String → Option String
  total : String → Option String

/-- The data chosen by the hybrid routing step. -/
structure RouteResult where
  raw_text : String
  tables : List Table
  method_used : String

/-- Steps 1-2 of `extract_procurement_data` (source lines 282-296): when
pdfplumber did not succeed, fall back to Donut with no tables and method
`"donut"` (a Donut exception propagates); otherwise keep the pdfplumber
text and tables with method `"pdfplumber"`. -/
def routeExtraction (plumber_data : PlumberResult) (denv : DonutEnv) :
    Except String RouteResult :=
  if plumber_data.success = false then
    match extract_with_donut denv with
    | .error e => .error e
    | .ok donut_data => .ok ⟨donut_data.text, [], "donut"⟩
  else
    .ok ⟨plumber_data.text, plumber_data.tables, "pdfplumber"⟩

/-- `normalize_date` applied to an `extract_field` result: Python `None`
is falsy and yields `None`. -/
def normalize_date_opt : Option String → Option String
  | none => none
  | some s => normalize_date s

/-- A turnover entry as it appears in the output record. -/
def tentryPy (t : TEntry) : PyVal :=
  .dict (.cons "year" (.str t.year) (.cons "amount" (.str t.amount) .nil))

/-- A line item as it appears in the output record. -/
def lineItemPy (it : LineItem) : PyVal :=
  .dict (PyFields.ofList
    [ ("description", optStr it.description),
      ("quantity", optStr it.quantity),
      ("unit_price", optStr it.unit_price),
      ("amount", optStr it.amount) ])

/-- The eligibility record as it appears in the output record. -/
def eligPy (e : Eligibility) : PyVal :=
  .dict (.cons "is_eligible" (optBool e.is_eligible) (.cons "reason" (.str e.reason) .nil))

/-- Steps 3-5 of `extract_procurement_data` (source lines 298-356): the
assembled output dict, with the three fields the source hard-codes to
`None` (`vendor_address`, `delivery_date`, `budget_requirement`) and the
initially empty `eligibility_check`. -/
def baseOutput (fm : FloatModel) (o : Oracle) (rt : RouteResult) :
    List (String × PyVal) :=
  let raw_text := rt.raw_text
  let doc_type := detect_document_type raw_text
  [ ("document_type", .str doc_type),
    ("vendor_name", optStr (o.vendor raw_text)),
    ("vendor_address", .pynone),
    ("tax_id", optStr (o.tax raw_text)),
    ("invoice_number", optStr (o.invoice raw_text)),
    ("po_number", optStr (o.po raw_text)),
    ("invoice_date", optStr (normalize_date_opt (o.date raw_text))),
    ("delivery_date", .pynone),
    ("total_amount", optStr (cellCurrency fm (o.total raw_text))),
    ("currency",
      if strContains raw_text "$" then .str "USD"
      else if strContains raw_text "₹" then .str "INR"
      else .pynone),
    ("turnover_last_3_years",
      .list (PyListV.ofList
        ((if doc_type = "PQ_FORM" then extract_turnover fm raw_text else []).map tentryPy))),
    ("budget_requirement", .pynone),
    ("eligibility_check", .dict .nil),
    ("line_items",
      .list (PyListV.ofList ((extract_line_items fm raw_text rt.tables).map lineItemPy))),
    ("raw_text", .str (pyTake raw_text 1000)),
    ("method_used", .str rt.method_used) ]

/-- Steps 3-7 of `extract_procurement_data` (source lines 298-365): build
the output dict, run the eligibility check for PQ forms on the turnover
value stored in the dict (its `float` calls may raise), and clean nulls. -/
def assembleRecord (fm : FloatModel) (o : Oracle) (rt : RouteResult) :
    Except String PyVal :=
  let doc_type := detect_document_type rt.raw_text
  let turnover := if doc_type = "PQ_FORM" then extract_turnover fm rt.raw_text else []
  let output := baseOutput fm o rt
  if doc_type = "PQ_FORM" then
    match check_eligibility fm (some turnover) with
    | .error e => .error e
    | .ok elig =>
      .ok (clean_nulls (.dict (PyFields.ofList (updateKey output "eligibility_check" (eligPy elig)))))
  else
    .ok (clean_nulls (.dict (PyFields.ofList output)))

/-- `extract_procurement_data` (source lines 278-365): pdfplumber first,
routing to Donut on failure, then assembly and null cleaning. -/
def extract_procurement_data (fm : FloatModel) (o : Oracle)
    (penv : PlumberEnv) (denv : DonutEnv) : Except String PyVal :=
  let plumber_data := extract_with_pdfplumber penv
  match routeExtraction plumber_data denv with
  | .error e => .error e
  | .ok rt => assembleRecord fm o rt

/-! ### Concrete instances for witnesses and counterexamples -/

/-- Digits to a natural number, `none` on a non-digit. -/
def digitsToNatAux : Nat → List Char → Option Nat
  | acc, [] => some acc
  | acc, c :: t =>
    if c.isDigit then digitsToNatAux (acc * 10 + (c.toNat - 48)) t else none

/-- Parse a plain `digits[.digits]` string into integer part, fractional
part, and fractional length, all as naturals (kernel-computable). -/
def decParse (s : String) : Option (Nat × Nat × Nat) :=
  let cs := s.toList
  let intPart := cs.takeWhile (fun c => c ≠ '.')
  let rest := cs.dropWhile (fun c => c ≠ '.')
  match rest with
  | [] =>
    if intPart.isEmpty then none
    else (digitsToNatAux 0 intPart).map (fun n => (n, 0, 0))
  | _ :: fracPart =>
    if fracPart.any (fun c => c = '.') then none
    else if intPart.isEmpty && fracPart.isEmpty then none
    else
      match digitsToNatAux 0 intPart, digitsToNatAux 0 fracPart with
      | some i, some f => some (i, f, fracPart.length)
      | _, _ => none

/-- An exact decimal parser on plain `digits[.digits]` strings, used to
instantiate the abstract float model at concrete inputs. -/
def decToRat (s : String) : Option ℚ :=
  (decParse s).map (fun t => (t.1 : ℚ) + (t.2.1 : ℚ) / ((10 : ℚ) ^ t.2.2))

/-- A float model with an exact decimal parser (rendering unused in the
statements that take it). -/
def fmDec : FloatModel where
  pyFloat := decToRat
  pyStr := fun _ => "0.0"

/-- A degenerate float model: every string parses to 0 and renders as
`"0.0"`; it satisfies both float-behavior hypotheses. -/
def fm0 : FloatModel where
  pyFloat := fun _ => some 0
  pyStr := fun _ => "0.0"

/-- An oracle on which every field extraction misses. -/
def oracle0 : Oracle where
  vendor := fun _ => none
  tax := fun _ => none
  invoice := fun _ => none
  po := fun _ => none
  date := fun _ => none
  total := fun _ => none

/-- A pdfplumber environment with a missing file. -/
def penv0 : PlumberEnv where
  fileExists := false
  openError := false
  pages := []

/-- A Donut environment with the optional dependency unavailable. -/
def denv0 : DonutEnv where
  donutAvailable := false
  loadModel := .ok ()
  convertFromPath := .ok []
  inference := fun _ => .ok ""
  eosToken := ""
  padToken := ""

/-- A Donut environment whose model download fails while the dependency is
available: `load_donut_model` raises outside the `try` block. -/
def denvCx : DonutEnv where
  donutAvailable := true
  loadModel := .error "OSError: model download failed"
  convertFromPath := .ok []
  inference := fun _ => .ok ""
  eosToken := ""
  padToken := ""

/-- The record produced by the full pipeline on the concrete environments
`fm0`, `oracle0`, `penv0`, `denv0` (the fallback path with an unavailable
vision dependency). -/
def witRec : PyVal :=
  match extract_procurement_data fm0 oracle0 penv0 denv0 with
  | .ok rec => rec
  | .error _ => .pynone

/-- A date input whose leftmost `D Month YYYY` match has an unrecognized
month name while a later match has a recognized one. -/
def cxDateInput : String := "1 Qqq 2020, 2 Jan 2021"

/-- A text with five valid year/amount turnover matches. -/
def turnoverText5 : String := "2001: 10, 2002: 20, 2003: 30, 2004: 40, 2005: 50"

/-- Claim-side reading of "the input matches one of the four supported date
patterns (with a recognized month name for the month-name pattern)": some
position matches pattern 1, 2 or 3, or some position matches pattern 4
with a recognized month. -/
def matchesClaimPattern (s : String) : Bool :=
  (searchFirst p1At s.toList).isSome ||
  (searchFirst p2At s.toList).isSome ||
  (searchFirst p3At s.toList).isSome ||
  existsMatch p4At (fun r => (monthNum r.2.1).isSome) s.toList

/-- The exact fall-through condition of `normalize_date`: no position
matches patterns 1, 2 or 3, and the leftmost pattern-4 match (if any) has
an unrecognized month name. -/
def dateFallthrough (s : String) : Bool :=
  (searchFirst p1At s.toList).isNone &&
  (searchFirst p2At s.toList).isNone &&
  (searchFirst p3At s.toList).isNone &&
  (match searchFirst p4At s.toList with
   | some r => (monthNum r.2.1).isNone
   | none => true)

/-- All characters are decimal digits. -/
def allDigits (s : String) : Bool :=
  s.toList.all Char.isDigit

/-! ## Helper lemmas -/

theorem cleanElems_ofList (xs : List PyVal) :
    cleanElems (PyListV.ofList xs) = PyListV.ofList (xs.map clean_nulls) := by
  induction xs with
  | nil => rfl
  | cons x xs ih => simp [PyListV.ofList, cleanElems, ih]

mutual

theorem clean_nulls_no_none (v : PyVal) : hasNone (clean_nulls v) = false := by
  cases v with
  | pynone => rfl
  | str s => rfl
  | pybool b => rfl
  | list xs => simpa [clean_nulls, hasNone] using cleanElems_no_none xs
  | dict kvs => simpa [clean_nulls, hasNone] using cleanFields_no_none kvs

theorem cleanElems_no_none (xs : PyListV) : elemsHaveNone (cleanElems xs) = false := by
  cases xs with
  | nil => rfl
  | cons x xs =>
    simp [cleanElems, elemsHaveNone, clean_nulls_no_none x, cleanElems_no_none xs]

theorem cleanFields_no_none (kvs : PyFields) : fieldsHaveNone (cleanFields kvs) = false := by
  cases kvs with
  | nil => rfl
  | cons k v rest =>
    simp [cleanFields, fieldsHaveNone, clean_nulls_no_none v, cleanFields_no_none rest]

end

mutual

theorem clean_nulls_id_of_no_none (v : PyVal) (h : hasNone v = false) :
    clean_nulls v = v := by
  cases v with
  | pynone => simp [hasNone] at h
  | str s => rfl
  | pybool b => rfl
  | list xs =>
    simp only [hasNone] at h
    simp [clean_nulls, cleanElems_id_of_no_none xs h]
  | dict kvs =>
    simp only [hasNone] at h
    simp [clean_nulls, cleanFields_id_of_no_none kvs h]

theorem cleanElems_id_of_no_none (xs : PyListV) (h : elemsHaveNone xs = false) :
    cleanElems xs = xs := by
  cases xs with
  | nil => rfl
  | cons x xs =>
    simp only [elemsHaveNone, Bool.or_eq_false_iff] at h
    simp [cleanElems, clean_nulls_id_of_no_none x h.1, cleanElems_id_of_no_none xs h.2]

theorem cleanFields_id_of_no_none (kvs : PyFields) (h : fieldsHaveNone kvs = false) :
    cleanFields kvs = kvs := by
  cases kvs with
  | nil => rfl
  | cons k v rest =>
    simp only [fieldsHaveNone, Bool.or_eq_false_iff] at h
    simp [cleanFields, clean_nulls_id_of_no_none v h.1, cleanFields_id_of_no_none rest h.2]

end

theorem findField_cleanFields : ∀ (kvs : PyFields) (k : String),
    findField (cleanFields kvs) k = (findField kvs k).map clean_nulls
  | .nil, _ => rfl
  | .cons k0 v rest, k => by
    by_cases hk : k0 = k
    · simp [cleanFields, findField, hk]
    · simp [cleanFields, findField, hk, findField_cleanFields rest k]

theorem getKey_clean_dict (kvs : PyFields) (k : String) :
    getKey (clean_nulls (.dict kvs)) k = (findField kvs k).map clean_nulls := by
  simp [clean_nulls, getKey, findField_cleanFields]

/-- Every `.ok` result of `assembleRecord` is a cleaned record. -/
theorem assembleRecord_ok (fm : FloatModel) (o : Oracle) (rt : RouteResult)
    (rec : PyVal) (h : assembleRecord fm o rt = .ok rec) :
    ∃ kvs : List (String × PyVal), rec = clean_nulls (.dict (PyFields.ofList kvs)) := by
  simp only [assembleRecord] at h
  split at h
  · split at h
    · exact absurd h (by simp)
    · exact ⟨_, by injection h with h; exact h.symm⟩
  · exact ⟨_, by injection h with h; exact h.symm⟩

/-! ## Claim C2 -/

/-- C2: the final cleaning step recursively replaces every `None` — at the
top level and inside nested mappings and sequences — with the string
`"null"`, leaves every non-absent value (including empty strings, empty
lists and empty mappings) unchanged, and consequently the record handed to
serialization contains no native null anywhere. -/
theorem c2_clean_nulls_spec :
    (∀ v, hasNone (clean_nulls v) = false) ∧
    (∀ v, hasNone v = false → clean_nulls v = v) ∧
    clean_nulls .pynone = .str "null" ∧
    (∀ s, clean_nulls (.str s) = .str s) ∧
    (∀ b, clean_nulls (.pybool b) = .pybool b) ∧
    clean_nulls (.list .nil) = .list .nil ∧
    clean_nulls (.dict .nil) = .dict .nil ∧
    (∀ fm o penv denv rec, extract_procurement_data fm o penv denv = .ok rec →
      hasNone rec = false) := by
  refine ⟨clean_nulls_no_none, clean_nulls_id_of_no_none, rfl, fun _ => rfl, fun _ => rfl,
    rfl, rfl, ?_⟩
  intro fm o penv denv rec h
  simp only [extract_procurement_data] at h
  cases hr : routeExtraction (extract_with_pdfplumber penv) denv with
  | error e => rw [hr] at h; exact absurd h (by simp)
  | ok rt =>
    rw [hr] at h
    obtain ⟨kvs, rfl⟩ := assembleRecord_ok fm o rt rec h
    exact clean_nulls_no_none _

/-- Witness for C2 at concrete inputs. -/
theorem c2_witness :
    clean_nulls (.list (.cons (.str "a") (.cons (.dict .nil) .nil)))
      = .list (.cons (.str "a") (.cons (.dict .nil) .nil)) ∧
    hasNone witRec = false :=
  ⟨c2_clean_nulls_spec.2.1 _ (by decide),
   c2_clean_nulls_spec.2.2.2.2.2.2.2 fm0 oracle0 penv0 denv0 witRec (by rfl)⟩

/-! ## Claim C3 -/

/-- C3: `detect_document_type` is a pure function of the lower-cased text
that returns the first matching keyword-group label in the fixed priority
order, `"UNKNOWN"` when none matches; in particular a text containing an
invoice keyword and a pre-qualification keyword classifies as PQ_FORM. -/
theorem c3_detect_document_type (text : String) :
    detect_document_type text = firstRuleLabel (strLower text) docTypeRules ∧
    (anyTerm (strLower text)
        ["pre-qualification", "prequalification", "pq form", "turnover"] = true →
      detect_document_type text = "PQ_FORM") ∧
    (strContains (strLower text) "invoice" = true →
      strContains (strLower text) "pre-qualification" = true →
      detect_document_type text = "PQ_FORM") ∧
    detect_document_type text ∈
      ["PQ_FORM", "IMPAIRMENT_FORM", "INVOICE", "PURCHASE_ORDER",
       "DELIVERY_NOTE", "VENDOR_ONBOARDING", "UNKNOWN"] := by
  refine ⟨?_, ?_, ?_, ?_⟩
  · simp only [detect_document_type, firstRuleLabel, docTypeRules, anyTerm,
      List.any_cons, List.any_nil, Bool.or_false]
  · intro h
    simp only [detect_document_type, h, if_true]
  · intro hinv hpq
    have h : anyTerm (strLower text)
        ["pre-qualification", "prequalification", "pq form", "turnover"] = true := by
      simp [anyTerm, hpq]
    simp only [detect_document_type, h, if_true]
  · simp only [detect_document_type]
    split
    · simp
    · split
      · simp
      · split
        · simp
        · split
          · simp
          · split
            · simp
            · split <;> simp

/-- Witness for C3 at a concrete text containing both an invoice keyword
and a pre-qualification keyword. -/
theorem c3_witness :
    detect_document_type "Invoice attached to the pre-qualification form" = "PQ_FORM" :=
  (c3_detect_document_type "Invoice attached to the pre-qualification form").2.2.1
    (by decide) (by decide)

/-! ## Claim C4 (counterexample and amended statement) -/

/-- C4 counterexample: with the vision dependency available but the model
download failing, `load_donut_model` raises outside the `try` block and
`extract_with_donut` propagates the exception to its caller instead of
returning a failed extraction. -/
theorem c4_counterexample :
    extract_with_donut denvCx = .error "OSError: model download failed" := rfl

/-- C4 amended: `extract_with_donut` returns the empty failed result
without erroring when the dependency is unavailable, and converts every
failure arising inside the `try` block (rasterization or inference) into
the empty failed result; however a model-loading failure propagates. -/
theorem c4_donut_error_handling (denv : DonutEnv) :
    (denv.donutAvailable = false → extract_with_donut denv = .ok ⟨"", false⟩) ∧
    (∀ e, denv.donutAvailable = true → denv.loadModel = .error e →
      extract_with_donut denv = .error e) ∧
    (∀ u, denv.loadModel = .ok u → ∃ r, extract_with_donut denv = .ok r) ∧
    (∀ u e, denv.loadModel = .ok u → donutTryBody denv = .error e →
      extract_with_donut denv = .ok ⟨"", false⟩) := by
  refine ⟨?_, ?_, ?_, ?_⟩
  · intro h
    simp [extract_with_donut, h]
  · intro e ha hl
    simp [extract_with_donut, ha, hl]
  · intro u hl
    by_cases ha : denv.donutAvailable = false
    · exact ⟨⟨"", false⟩, by simp [extract_with_donut, ha]⟩
    · refine ⟨?_, ?_⟩
      case _ => exact (match donutTryBody denv with | .ok r => r | .error _ => ⟨"", false⟩)
      simp only [extract_with_donut, if_neg ha, hl]
      cases donutTryBody denv <;> rfl
  · intro u e hl hb
    by_cases ha : denv.donutAvailable = false
    · simp [extract_with_donut, ha]
    · simp [extract_with_donut, ha, hl, hb]

/-- Witness for C4 amended at the unavailable-dependency environment. -/
theorem c4_witness : extract_with_donut denv0 = .ok ⟨"", false⟩ :=
  (c4_donut_error_handling denv0).1 rfl

/-! ## Claim C8 -/

/-- C8: on a non-empty turnover list whose amounts sum to `tot`,
`check_eligibility` returns eligible with the meets-requirement reason
exactly when `1000000 ≤ tot`, and the below-threshold result otherwise; an
absent or empty list yields the defaults `(None, "")`. -/
theorem c8_check_eligibility (fm : FloatModel) :
    check_eligibility fm none = .ok ⟨none, ""⟩ ∧
    check_eligibility fm (some []) = .ok ⟨none, ""⟩ ∧
    (∀ ts tot, ts ≠ [] → sumAmounts fm ts = some tot →
      check_eligibility fm (some ts) =
        .ok (if 1000000 ≤ tot then ⟨some true, "Meets minimum turnover requirement"⟩
             else ⟨some false, "Below minimum turnover threshold"⟩)) ∧
    (∀ ts tot, ts ≠ [] → sumAmounts fm ts = some tot →
      (check_eligibility fm (some ts) = .ok ⟨some true, "Meets minimum turnover requirement"⟩ ↔
        1000000 ≤ tot)) := by
  have key : ∀ ts tot, ts ≠ [] → sumAmounts fm ts = some tot →
      check_eligibility fm (some ts) =
        .ok (if 1000000 ≤ tot then ⟨some true, "Meets minimum turnover requirement"⟩
             else ⟨some false, "Below minimum turnover threshold"⟩) := by
    intro ts tot hne hsum
    cases ts with
    | nil => exact absurd rfl hne
    | cons t ts =>
      simp only [check_eligibility, hsum]
      split <;> rfl
  refine ⟨rfl, rfl, key, ?_⟩
  intro ts tot hne hsum
  rw [key ts tot hne hsum]
  by_cases hge : 1000000 ≤ tot
  · simp [hge]
  · simp [hge]

/-- Witness for C8: amounts summing to exactly 1,000,000 are eligible and
999,999.99 is not. -/
theorem c8_witness :
    check_eligibility fmDec (some [⟨"2021", "400000"⟩, ⟨"2022", "600000.00"⟩]) =
      .ok ⟨some true, "Meets minimum turnover requirement"⟩ ∧
    check_eligibility fmDec (some [⟨"2024", "999999.99"⟩]) =
      .ok ⟨some false, "Below minimum turnover threshold"⟩ := by
  constructor
  · have h1 : decParse "400000" = some (400000, 0, 0) := by decide
    have h2 : decParse "600000.00" = some (600000, 0, 2) := by decide
    have hsum : sumAmounts fmDec [⟨"2021", "400000"⟩, ⟨"2022", "600000.00"⟩] = some 1000000 := by
      simp only [sumAmounts, fmDec, decToRat, h1, h2, Option.map_some]
      norm_num
    have h := (c8_check_eligibility fmDec).2.2.1 _ 1000000 (by simp) hsum
    rw [if_pos (by norm_num)] at h
    exact h
  · have h1 : decParse "999999.99" = some (999999, 99, 2) := by decide
    have hsum : sumAmounts fmDec [⟨"2024", "999999.99"⟩] = some (999999 + 99 / 100) := by
      simp only [sumAmounts, fmDec, decToRat, h1, Option.map_some]
      norm_num
    have h := (c8_check_eligibility fmDec).2.2.1 _ _ (by simp) hsum
    rw [if_neg (by norm_num)] at h
    exact h

/-! ## Claim C9 -/

theorem lineItems_inner_foldl (fm : FloatModel) (rows : List Row) (acc : List LineItem) :
    rows.foldl (fun acc2 row => if 3 ≤ row.length then acc2 ++ [rowItem fm row] else acc2) acc =
      acc ++ rows.filterMap
        (fun row => if 3 ≤ row.length then some (rowItem fm row) else none) := by
  induction rows generalizing acc with
  | nil => simp
  | cons r rows ih =>
    by_cases h : 3 ≤ r.length
    · simp [h, ih]
    · simp [h, ih]

theorem rowItem_eq_spec (fm : FloatModel) (row : Row) (h : 3 ≤ row.length) :
    rowItem fm row = rowItemSpec fm row := by
  simp only [rowItem, rowItemSpec, LineItem.mk.injEq]
  refine ⟨by rw [if_pos (by omega)], by rw [if_pos (by omega)], by rw [if_pos (by omega)], ?_⟩
  by_cases h4 : 3 < row.length
  · rw [if_pos h4, if_neg (by omega)]
  · rw [if_neg h4, if_pos (by omega)]

/-- C9: line items are exactly the claim-side description — nothing from
tables with fewer than two rows, the header row never emitted, one item
per data row with at least three cells (description verbatim, numeric
cells currency-normalized, amount absent on three-cell rows), short rows
skipped. -/
theorem c9_extract_line_items (fm : FloatModel) (text : String) (tables : List Table) :
    extract_line_items fm text tables = lineItemsSpec fm tables ∧
    ((∀ t ∈ tables, t.length < 2) → extract_line_items fm text tables = []) := by
  have main : ∀ tables : List Table,
      extract_line_items fm text tables = lineItemsSpec fm tables := by
    intro tables
    have hfun : (fun (acc : List LineItem) (table : Table) =>
        if table.length < 2 then acc
        else (table.drop 1).foldl
          (fun acc2 row => if 3 ≤ row.length then acc2 ++ [rowItem fm row] else acc2) acc) =
        (fun (acc : List LineItem) (table : Table) =>
        if table.length < 2 then acc
        else acc ++ (table.drop 1).filterMap
          (fun row => if 3 ≤ row.length then some (rowItem fm row) else none)) := by
      funext a table
      by_cases h2 : table.length < 2
      · rw [if_pos h2, if_pos h2]
      · rw [if_neg h2, if_neg h2, lineItems_inner_foldl]
    unfold extract_line_items lineItemsSpec
    rw [hfun]
    suffices h : ∀ acc, tables.foldl (fun acc table =>
        if table.length < 2 then acc
        else acc ++ (table.drop 1).filterMap
          (fun row => if 3 ≤ row.length then some (rowItem fm row) else none)) acc =
        acc ++ tables.flatMap (fun table =>
          if table.length < 2 then []
          else (table.drop 1).filterMap (fun row =>
            if 3 ≤ row.length then some (rowItemSpec fm row) else none)) by
      simpa using h []
    induction tables with
    | nil => simp
    | cons t ts ih =>
      intro acc
      by_cases h2 : t.length < 2
      · simp only [List.foldl_cons, if_pos h2, List.flatMap_cons, List.nil_append]
        exact ih acc
      · have hrw : (t.drop 1).filterMap
            (fun row => if 3 ≤ row.length then some (rowItem fm row) else none) =
            (t.drop 1).filterMap
            (fun row => if 3 ≤ row.length then some (rowItemSpec fm row) else none) := by
          refine List.filterMap_congr ?_
          intro row _
          by_cases h3 : 3 ≤ row.length
          · rw [if_pos h3, if_pos h3, rowItem_eq_spec fm row h3]
          · rw [if_neg h3, if_neg h3]
        simp only [List.foldl_cons, if_neg h2, List.flatMap_cons]
        rw [ih, hrw, List.append_assoc]
  refine ⟨main tables, ?_⟩
  intro hshort
  rw [main tables]
  unfold lineItemsSpec
  refine List.flatMap_eq_nil_iff.mpr ?_
  intro t ht
  rw [if_pos (hshort t ht)]

/-- Witness for C9 at a one-row table (no header emitted, no items). -/
theorem c9_witness :
    extract_line_items fm0 "ignored" [[[some "only", some "row", some "here"]]] = [] :=
  (c9_extract_line_items fm0 "ignored" [[[some "only", some "row", some "here"]]]).2
    (by decide)

/-! ## Claim C7 -/

theorem turnover_foldl_eq_filterMap (fm : FloatModel) (ms : List (String × String))
    (acc : List TEntry) :
    ms.foldl (fun acc m =>
      match normalize_currency fm m.2 with
      | some amount => if amount = "" then acc else acc ++ [⟨m.1, amount⟩]
      | none => acc) acc =
    acc ++ ms.filterMap (fun m =>
      match normalize_currency fm m.2 with
      | some amount => if amount = "" then none else some ⟨m.1, amount⟩
      | none => none) := by
  induction ms generalizing acc with
  | nil => simp
  | cons m ms ih =>
    cases hn : normalize_currency fm m.2 with
    | none => simp [hn, ih]
    | some amount =>
      by_cases he : amount = ""
      · simp [hn, he, ih]
      · simp [hn, he, ih]

/-- C7: `extract_turnover` applies both regex sweeps unconditionally (so
entries may duplicate across them), keeps only matches whose amount passes
currency normalization, and returns at most the first three kept entries
in scan/append order; with five kept matches the result is exactly the
first three. -/
theorem c7_extract_turnover (fm : FloatModel) (text : String) :
    extract_turnover fm text = (turnoverKept fm text).take 3 ∧
    (extract_turnover fm text).length ≤ 3 ∧
    ((turnoverKept fm text).length = 5 →
      (extract_turnover fm text).length = 3 ∧
      extract_turnover fm text = (turnoverKept fm text).take 3) := by
  have heq : extract_turnover fm text = (turnoverKept fm text).take 3 := by
    unfold extract_turnover turnoverKept
    dsimp only
    rw [turnover_foldl_eq_filterMap]
    simp
  refine ⟨heq, ?_, ?_⟩
  · rw [heq]
    exact List.length_take_le 3 (turnoverKept fm text)
  · intro h5
    refine ⟨?_, heq⟩
    rw [heq, List.length_take, h5]
    omega

/-- Witness for C7: a text with five valid year/amount matches yields
exactly three entries. -/
theorem c7_witness :
    (turnoverKept fm0 turnoverText5).length = 5 ∧
    (extract_turnover fm0 turnoverText5).length = 3 :=
  ⟨by decide, ((c7_extract_turnover fm0 turnoverText5).2.2 (by decide)).1⟩

/-! ## Claim C6 -/

theorem cleanedCurrency_plain (s : String) (hs : isCommaNumber s = true) :
    plainDecimal (cleanedCurrency s) = true ∧ s ≠ "" := by
  simp only [isCommaNumber, Bool.and_eq_true, List.all_eq_true, List.any_eq_true,
    decide_eq_true_eq] at hs
  obtain ⟨⟨h1, h2⟩, h3⟩ := hs
  have hkeep : s.toList.filter keepCur = s.toList := by
    refine List.filter_eq_self.mpr ?_
    intro c hc
    have := h1 c hc
    simp only [keepCur, Bool.or_eq_true, decide_eq_true_eq] at this ⊢
    tauto
  have htlist : (cleanedCurrency s).toList = s.toList.filter (fun c => c ≠ ',') := by
    show (s.toList.filter keepCur).filter (fun c => c ≠ ',') = s.toList.filter (fun c => c ≠ ',')
    rw [hkeep]
  constructor
  · simp only [plainDecimal, Bool.and_eq_true, List.all_eq_true, List.any_eq_true,
      decide_eq_true_eq, htlist]
    refine ⟨⟨?_, ?_⟩, ?_⟩
    · intro c hc
      obtain ⟨hcs, hcne⟩ := List.mem_filter.mp hc
      have := h1 c hcs
      simp only [decide_eq_true_eq] at hcne
      simp only [Bool.or_eq_true, decide_eq_true_eq] at this ⊢
      tauto
    · obtain ⟨c, hcs, hcd⟩ := h2
      refine ⟨c, List.mem_filter.mpr ⟨hcs, ?_⟩, hcd⟩
      simp only [decide_eq_true_eq]
      intro hEq
      rw [hEq] at hcd
      exact absurd hcd (by decide)
    · have heqf : (s.toList.filter (fun c => c ≠ ',')).filter (fun c => c = '.') =
          s.toList.filter (fun c => c = '.') := by
        rw [List.filter_filter]
        refine List.filter_congr ?_
        intro c _
        by_cases hc : c = '.'
        · subst hc; decide
        · simp [hc]
      rw [heqf]
      exact h3
  · intro hEmpty
    obtain ⟨c, hcs, _⟩ := h2
    rw [hEmpty] at hcs
    exact absurd hcs (List.not_mem_nil c)

/-- C6: on inputs made only of digits, thousands commas and an optional
decimal point, `normalize_currency` succeeds and its output parses back to
the very same float value as the comma-stripped input (round trip); every
non-absent output is float-parseable; empty or unparseable input yields
`None`.  The two hypotheses are the documented Python float facts used:
`float` accepts plain `digits[.digits]` strings, and `float(str(x))`
returns `x` for every `x` in `float`'s range. -/
theorem c6_normalize_currency (fm : FloatModel)
    (hAcc : ∀ t, plainDecimal t = true → (fm.pyFloat t).isSome = true)
    (hRT : ∀ v s, fm.pyFloat s = some v → fm.pyFloat (fm.pyStr v) = some v) :
    (∀ s, isCommaNumber s = true →
      ∃ v, fm.pyFloat (cleanedCurrency s) = some v ∧
        normalize_currency fm s = some (fm.pyStr v) ∧
        fm.pyFloat (fm.pyStr v) = some v) ∧
    (∀ s out, normalize_currency fm s = some out → (fm.pyFloat out).isSome = true) ∧
    normalize_currency fm "" = none ∧
    (∀ s, fm.pyFloat (cleanedCurrency s) = none → normalize_currency fm s = none) := by
  refine ⟨?_, ?_, rfl, ?_⟩
  · intro s hs
    obtain ⟨hplain, hne⟩ := cleanedCurrency_plain s hs
    obtain ⟨v, hv⟩ := Option.isSome_iff_exists.mp (hAcc _ hplain)
    refine ⟨v, hv, ?_, hRT v _ hv⟩
    unfold normalize_currency
    rw [if_neg hne, hv]
  · intro s out h
    unfold normalize_currency at h
    split at h
    · exact absurd h (by simp)
    · cases hf : fm.pyFloat (cleanedCurrency s) with
      | none => rw [hf] at h; exact absurd h (by simp)
      | some v =>
        rw [hf] at h
        injection h with h
        rw [← h]
        simp [hRT v _ hf]
  · intro s h
    unfold normalize_currency
    by_cases he : s = ""
    · rw [if_pos he]
    · rw [if_neg he, h]

/-- Witness for C6 at the degenerate float model (both hypotheses hold for
it) and a concrete comma-grouped amount. -/
theorem c6_witness :
    isCommaNumber "45,230.50" = true ∧
    normalize_currency fm0 "45,230.50" = some "0.0" := by
  refine ⟨by decide, ?_⟩
  obtain ⟨v, hv1, hv2, hv3⟩ :=
    (c6_normalize_currency fm0 (fun _ _ => rfl) (fun v s h => h)).1 "45,230.50" (by decide)
  exact hv2

/-! ## Claims C1 and C10 -/

theorem assembleRecord_getKey (fm : FloatModel) (o : Oracle) (rt : RouteResult)
    (rec : PyVal) (h : assembleRecord fm o rt = .ok rec) :
    getKey rec "method_used" = some (.str rt.method_used) ∧
    getKey rec "vendor_address" = some (.str "null") ∧
    getKey rec "delivery_date" = some (.str "null") ∧
    getKey rec "budget_requirement" = some (.str "null") := by
  simp only [assembleRecord] at h
  split at h
  · split at h
    · exact absurd h (by simp)
    · injection h with h
      subst h
      refine ⟨?_, ?_, ?_, ?_⟩ <;>
        simp [getKey, getKey_clean_dict, baseOutput, updateKey, PyFields.ofList, findField,
          clean_nulls, cleanFields]
  · injection h with h
    subst h
    refine ⟨?_, ?_, ?_, ?_⟩ <;>
      simp [getKey, getKey_clean_dict, baseOutput, PyFields.ofList, findField, clean_nulls,
        cleanFields]

/-- C10: for every input, the three fields `vendor_address`,
`delivery_date` and `budget_requirement` of the output record equal the
placeholder string `"null"`: they are hard-coded to `None` at assembly,
for every behavior of the per-field regex extractions, and the cleaning
step turns them into `"null"`. -/
theorem c10_constant_null_fields (fm : FloatModel) (o : Oracle)
    (penv : PlumberEnv) (denv : DonutEnv) (rec : PyVal)
    (h : extract_procurement_data fm o penv denv = .ok rec) :
    getKey rec "vendor_address" = some (.str "null") ∧
    getKey rec "delivery_date" = some (.str "null") ∧
    getKey rec "budget_requirement" = some (.str "null") := by
  simp only [extract_procurement_data] at h
  cases hr : routeExtraction (extract_with_pdfplumber penv) denv with
  | error e => rw [hr] at h; exact absurd h (by simp)
  | ok rt =>
    rw [hr] at h
    exact (assembleRecord_getKey fm o rt rec h).2

/-- Witness for C10 on the concrete fallback-path record. -/
theorem c10_witness :
    getKey witRec "vendor_address" = some (.str "null") ∧
    getKey witRec "delivery_date" = some (.str "null") ∧
    getKey witRec "budget_requirement" = some (.str "null") :=
  c10_constant_null_fields fm0 oracle0 penv0 denv0 witRec (by rfl)

/-- C1: pdfplumber success is declared exactly when the stripped extracted
text is longer than 20 characters; in that case its text and tables are
used with method `"pdfplumber"`, otherwise the Donut fallback is invoked
with empty tables and method `"donut"`; whenever a record is produced, its
`method_used` field is one of those two labels, matching the routing. -/
theorem c1_extraction_routing (penv : PlumberEnv) (denv : DonutEnv) :
    ((extract_with_pdfplumber penv).success = true ↔
      20 < (pyStrip (extract_with_pdfplumber penv).text).length) ∧
    (20 < (pyStrip (extract_with_pdfplumber penv).text).length →
      routeExtraction (extract_with_pdfplumber penv) denv =
        .ok ⟨(extract_with_pdfplumber penv).text,
             (extract_with_pdfplumber penv).tables, "pdfplumber"⟩) ∧
    (¬ 20 < (pyStrip (extract_with_pdfplumber penv).text).length →
      routeExtraction (extract_with_pdfplumber penv) denv =
        (extract_with_donut denv).map (fun d => ⟨d.text, [], "donut"⟩)) ∧
    (∀ rt, routeExtraction (extract_with_pdfplumber penv) denv = .ok rt →
      rt.method_used = "pdfplumber" ∨ rt.method_used = "donut") ∧
    (∀ fm o rec, extract_procurement_data fm o penv denv = .ok rec →
      getKey rec "method_used" =
        some (.str (if 20 < (pyStrip (extract_with_pdfplumber penv).text).length
                    then "pdfplumber" else "donut"))) := by
  have hiff : (extract_with_pdfplumber penv).success = true ↔
      20 < (pyStrip (extract_with_pdfplumber penv).text).length := by
    by_cases hf : penv.fileExists = false
    · simp only [extract_with_pdfplumber, if_pos hf]
      constructor
      · intro h; exact absurd h (by decide)
      · intro h; exact absurd h (by decide)
    · by_cases ho : penv.openError = true
      · simp only [extract_with_pdfplumber, if_neg hf, if_pos ho]
        constructor
        · intro h; exact absurd h (by decide)
        · intro h; exact absurd h (by decide)
      · simp only [extract_with_pdfplumber, if_neg hf, if_neg ho]
        exact decide_eq_true_iff
  have hroute_pos : 20 < (pyStrip (extract_with_pdfplumber penv).text).length →
      routeExtraction (extract_with_pdfplumber penv) denv =
        .ok ⟨(extract_with_pdfplumber penv).text,
             (extract_with_pdfplumber penv).tables, "pdfplumber"⟩ := by
    intro hlen
    have hs : (extract_with_pdfplumber penv).success = true := hiff.mpr hlen
    simp [routeExtraction, hs]
  have hroute_neg : ¬ 20 < (pyStrip (extract_with_pdfplumber penv).text).length →
      routeExtraction (extract_with_pdfplumber penv) denv =
        (extract_with_donut denv).map (fun d => ⟨d.text, [], "donut"⟩) := by
    intro hlen
    have hs : (extract_with_pdfplumber penv).success = false := by
      cases hsv : (extract_with_pdfplumber penv).success
      · rfl
      · exact absurd (hiff.mp hsv) hlen
    simp only [routeExtraction, hs, if_pos rfl]
    cases extract_with_donut denv <;> rfl
  refine ⟨hiff, hroute_pos, hroute_neg, ?_, ?_⟩
  · intro rt hrt
    unfold routeExtraction at hrt
    split at hrt
    · cases hd : extract_with_donut denv with
      | error e => rw [hd] at hrt; exact absurd hrt (by simp)
      | ok d => rw [hd] at hrt; injection hrt with hrt; rw [← hrt]; exact Or.inr rfl
    · injection hrt with hrt; rw [← hrt]; exact Or.inl rfl
  · intro fm o rec hrec
    simp only [extract_procurement_data] at hrec
    by_cases hlen : 20 < (pyStrip (extract_with_pdfplumber penv).text).length
    · rw [if_pos hlen]
      rw [hroute_pos hlen] at hrec
      exact (assembleRecord_getKey fm o _ rec hrec).1
    · rw [if_neg hlen]
      rw [hroute_neg hlen] at hrec
      cases hd : extract_with_donut denv with
      | error e => rw [hd] at hrec; exact absurd hrec (by simp [Except.map])
      | ok d =>
        rw [hd] at hrec
        simp only [Except.map] at hrec
        exact (assembleRecord_getKey fm o _ rec hrec).1

/-- Witness for C1 on the concrete fallback-path environments. -/
theorem c1_witness :
    routeExtraction (extract_with_pdfplumber penv0) denv0 =
      (extract_with_donut denv0).map (fun d => ⟨d.text, [], "donut"⟩) ∧
    getKey witRec "method_used" = some (.str "donut") := by
  have h := c1_extraction_routing penv0 denv0
  refine ⟨h.2.2.1 (by decide), ?_⟩
  have h5 := h.2.2.2.2 fm0 oracle0 witRec (by rfl)
  rw [if_neg (by decide)] at h5
  exact h5

/-! ## Claim C5 -/

theorem searchFirst_prop {α : Type} (f : List Char → Option α) (P : α → Prop)
    (hf : ∀ l r, f l = some r → P r) :
    ∀ l r, searchFirst f l = some r → P r := by
  intro l
  induction l with
  | nil => intro r h; exact hf [] r h
  | cons c t ih =>
    intro r h
    simp only [searchFirst] at h
    cases hfc : f (c :: t) with
    | some r0 => rw [hfc] at h; injection h with h; rw [← h]; exact hf _ _ hfc
    | none => rw [hfc] at h; exact ih r h

theorem p1At_shape (l : List Char) (r : String) (h : p1At l = some r) :
    isISOform r = true := by
  unfold p1At at h
  split at h
  next a b c d e f g i j k tail =>
    split at h
    next hcond =>
      injection h with h
      subst h
      simp only [Bool.and_eq_true, decide_eq_true_eq] at hcond
      obtain ⟨⟨⟨⟨⟨⟨⟨⟨⟨h1, h2⟩, h3⟩, h4⟩, h5⟩, h6⟩, h7⟩, h8⟩, h9⟩, h10⟩ := hcond
      subst h5
      subst h8
      simp [isISOform, h1, h2, h3, h4, h6, h7, h9, h10]
    next => exact absurd h (by simp)
  next => exact absurd h (by simp)

theorem p2At_shape (l : List Char) (d m y : String)
    (h : p2At l = some (d, m, y)) :
    allDigits d = true ∧ d.length = 2 ∧ allDigits m = true ∧ m.length = 2 ∧
    allDigits y = true ∧ y.length = 4 := by
  unfold p2At at h
  split at h
  next a b c d0 e f g i j k tail =>
    split at h
    next hcond =>
      injection h with h
      injection h with hd h
      injection h with hm hy
      subst hd
      subst hm
      subst hy
      simp only [Bool.and_eq_true, decide_eq_true_eq] at hcond
      obtain ⟨⟨⟨⟨⟨⟨⟨⟨⟨h1, h2⟩, h3⟩, h4⟩, h5⟩, h6⟩, h7⟩, h8⟩, h9⟩, h10⟩ := hcond
      refine ⟨?_, rfl, ?_, rfl, ?_, rfl⟩ <;> simp [allDigits, h1, h2, h4, h5, h7, h8, h9, h10]
    next => exact absurd h (by simp)
  next => exact absurd h (by simp)

theorem p3At_shape (l : List Char) (d m y : String)
    (h : p3At l = some (d, m, y)) :
    allDigits d = true ∧ d.length = 2 ∧ allDigits m = true ∧ m.length = 2 ∧
    allDigits y = true ∧ y.length = 4 := by
  unfold p3At at h
  split at h
  next a b c d0 e f g i j k tail =>
    split at h
    next hcond =>
      injection h with h
      injection h with hd h
      injection h with hm hy
      subst hd
      subst hm
      subst hy
      simp only [Bool.and_eq_true, decide_eq_true_eq] at hcond
      obtain ⟨⟨⟨⟨⟨⟨⟨⟨⟨h1, h2⟩, h3⟩, h4⟩, h5⟩, h6⟩, h7⟩, h8⟩, h9⟩, h10⟩ := hcond
      refine ⟨?_, rfl, ?_, rfl, ?_, rfl⟩ <;> simp [allDigits, h1, h2, h4, h5, h7, h8, h9, h10]
    next => exact absurd h (by simp)
  next => exact absurd h (by simp)

theorem p4Tail_shape (day : List Char) (l : List Char) (d ms y : String)
    (h : p4Tail day l = some (d, ms, y)) :
    d = String.mk day ∧ allDigits y = true ∧ y.length = 4 := by
  simp only [p4Tail] at h
  split at h
  · exact absurd h (by simp)
  · split at h
    · exact absurd h (by simp)
    · split at h
      · exact absurd h (by simp)
      · split at h
        next y1 y2 y3 y4 tail =>
          split at h
          next hcond =>
            injection h with h
            injection h with hd h
            injection h with hms hy
            subst hd
            subst hms
            subst hy
            simp only [Bool.and_eq_true, decide_eq_true_eq] at hcond
            obtain ⟨⟨⟨h1, h2⟩, h3⟩, h4⟩ := hcond
            exact ⟨rfl, by simp [allDigits, h1, h2, h3, h4], rfl⟩
          next => exact absurd h (by simp)
        next => exact absurd h (by simp)

theorem p4At_shape (l : List Char) (d ms y : String)
    (h : p4At l = some (d, ms, y)) :
    allDigits d = true ∧ (d.length = 1 ∨ d.length = 2) ∧
    allDigits y = true ∧ y.length = 4 := by
  unfold p4At at h
  split at h
  · exact absurd h (by simp)
  next d1 rest =>
    split at h
    next hd1 =>
      split at h
      · exact absurd h (by simp)
      next d2 rest2 =>
        split at h
        next hd2 =>
          obtain ⟨hd, hy, hylen⟩ := p4Tail_shape _ _ _ _ _ h
          subst hd
          exact ⟨by simp [allDigits, hd1, hd2], Or.inr rfl, hy, hylen⟩
        next =>
          obtain ⟨hd, hy, hylen⟩ := p4Tail_shape _ _ _ _ _ h
          subst hd
          exact ⟨by simp [allDigits, hd1], Or.inl rfl, hy, hylen⟩
    next => exact absurd h (by simp)

theorem toList_append (a b : String) : (a ++ b).toList = a.toList ++ b.toList :=
  String.data_append a b

theorem list_of_len2 (l : List Char) (h : l.length = 2) : ∃ a b, l = [a, b] := by
  obtain ⟨a, l1, rfl⟩ := List.exists_of_length_succ l (n := 1) (by omega)
  obtain ⟨b, l2, rfl⟩ := List.exists_of_length_succ l1 (n := 0) (by simpa using h)
  have hl2 : l2 = [] := by simpa using h
  exact ⟨a, b, by rw [hl2]⟩

theorem list_of_len4 (l : List Char) (h : l.length = 4) : ∃ a b c d, l = [a, b, c, d] := by
  obtain ⟨a, l1, rfl⟩ := List.exists_of_length_succ l (n := 3) (by omega)
  obtain ⟨b, l2, rfl⟩ := List.exists_of_length_succ l1 (n := 2) (by simpa using h)
  obtain ⟨c, l3, rfl⟩ := List.exists_of_length_succ l2 (n := 1) (by simpa using h)
  obtain ⟨d, l4, rfl⟩ := List.exists_of_length_succ l3 (n := 0) (by simpa using h)
  have hl4 : l4 = [] := by simpa using h
  exact ⟨a, b, c, d, by rw [hl4]⟩

theorem zfill2_of_len2 (s : String) (h : s.length = 2) : zfill2 s = s := by
  unfold zfill2
  rw [if_neg (by omega)]

theorem zfill2_digits (s : String) (hd : allDigits s = true)
    (hl : s.length = 1 ∨ s.length = 2) :
    allDigits (zfill2 s) = true ∧ (zfill2 s).length = 2 := by
  cases hl with
  | inr h2 => rw [zfill2_of_len2 s h2]; exact ⟨hd, h2⟩
  | inl h1 =>
    have hz : zfill2 s = String.mk ['0'] ++ s := by
      unfold zfill2
      rw [if_pos (by omega), h1]
      rfl
    rw [hz]
    constructor
    · simp only [allDigits, toList_append] at hd ⊢
      simpa using hd
    · rw [String.length_append, h1]
      rfl

/-- Assembling four digit characters, a dash, two, a dash, and two more
yields the YYYY-MM-DD shape. -/
theorem iso_assemble (y m2 d2 : String)
    (hy : allDigits y = true) (hylen : y.length = 4)
    (hm : allDigits m2 = true) (hmlen : m2.length = 2)
    (hd : allDigits d2 = true) (hdlen : d2.length = 2) :
    isISOform (y ++ "-" ++ m2 ++ "-" ++ d2) = true := by
  obtain ⟨y1, y2, y3, y4, hyl⟩ := list_of_len4 y.toList hylen
  obtain ⟨m1, m2c, hml⟩ := list_of_len2 m2.toList hmlen
  obtain ⟨d1, d2c, hdl⟩ := list_of_len2 d2.toList hdlen
  have htl : (y ++ "-" ++ m2 ++ "-" ++ d2).toList =
      [y1, y2, y3, y4, '-', m1, m2c, '-', d1, d2c] := by
    rw [toList_append, toList_append, toList_append, toList_append, hyl, hml, hdl]
    rfl
  simp only [allDigits, hyl, hml, hdl, List.all_cons, List.all_nil, Bool.and_eq_true,
    Bool.and_true] at hy hm hd
  simp only [isISOform, htl]
  simp [hy.1, hy.2.1, hy.2.2.1, hy.2.2.2, hm.1, hm.2, hd.1, hd.2]

/-- A YYYY-MM-DD string matches pattern 1 at position 0 with itself as the
whole match, and is neither falsy nor the literal `"null"`. -/
theorem iso_selfmatch (r : String) (h : isISOform r = true) :
    searchFirst p1At r.toList = some r ∧ r ≠ "" ∧ r ≠ "null" := by
  unfold isISOform at h
  split at h
  next a b c d e f g i j k heq =>
    simp only [Bool.and_eq_true, decide_eq_true_eq] at h
    obtain ⟨⟨⟨⟨⟨⟨⟨⟨⟨h1, h2⟩, h3⟩, h4⟩, h5⟩, h6⟩, h7⟩, h8⟩, h9⟩, h10⟩ := h
    subst h5
    subst h8
    refine ⟨?_, ?_, ?_⟩
    · rw [heq]
      have hp1 : p1At [a, b, c, d, '-', f, g, '-', j, k] =
          some (String.mk [a, b, c, d, '-', f, g, '-', j, k]) := by
        simp [p1At, h1, h2, h3, h4, h6, h7, h9, h10]
      have hmk : String.mk [a, b, c, d, '-', f, g, '-', j, k] = r := by
        rw [← heq]
        rfl
      unfold searchFirst
      simp only [hp1, hmk]
    · intro he
      subst he
      have hbad : ("" : String).toList.length = 10 := by rw [heq]; rfl
      exact absurd hbad (by decide)
    · intro he
      subst he
      have hbad : ("null" : String).toList.length = 10 := by rw [heq]; rfl
      exact absurd hbad (by decide)
  next => exact absurd h (by simp)

theorem monthNum_range (ms : String) (m : Nat) (h : monthNum ms = some m) :
    1 ≤ m ∧ m ≤ 12 := by
  unfold monthNum at h
  split at h <;> injection h <;> omega

theorem month_zfill (m : Nat) (h1 : 1 ≤ m) (h2 : m ≤ 12) :
    allDigits (zfill2 (toString m)) = true ∧ (zfill2 (toString m)).length = 2 := by
  interval_cases m <;> exact ⟨by decide, by decide⟩

/-- Every value `normalize_date` returns has the YYYY-MM-DD shape and is a
fixed point of `normalize_date`. -/
theorem normalize_date_some (s r : String) (h : normalize_date s = some r) :
    isISOform r = true ∧ normalize_date r = some r := by
  have hiso : isISOform r = true := by
    unfold normalize_date at h
    split at h
    · exact absurd h (by simp)
    · cases hp1 : searchFirst p1At s.toList with
      | some g0 =>
        rw [hp1] at h
        injection h with h
        subst h
        exact searchFirst_prop p1At (fun g => isISOform g = true) p1At_shape _ _ hp1
      | none =>
        rw [hp1] at h
        cases hp2 : searchFirst p2At s.toList with
        | some p =>
          obtain ⟨d, m, y⟩ := p
          rw [hp2] at h
          simp only at h
          injection h with h
          subst h
          obtain ⟨hd, hdl, hm, hml, hy, hyl⟩ := searchFirst_prop p2At
            (fun t => allDigits t.1 = true ∧ t.1.length = 2 ∧ allDigits t.2.1 = true ∧
              t.2.1.length = 2 ∧ allDigits t.2.2 = true ∧ t.2.2.length = 4)
            (fun l t ht => by obtain ⟨d0, m0, y0⟩ := t; exact p2At_shape l d0 m0 y0 ht)
            _ _ hp2
          rw [zfill2_of_len2 m hml, zfill2_of_len2 d hdl]
          exact iso_assemble y m d hy hyl hm hml hd hdl
        | none =>
          rw [hp2] at h
          cases hp3 : searchFirst p3At s.toList with
          | some p =>
            obtain ⟨d, m, y⟩ := p
            rw [hp3] at h
            simp only at h
            injection h with h
            subst h
            obtain ⟨hd, hdl, hm, hml, hy, hyl⟩ := searchFirst_prop p3At
              (fun t => allDigits t.1 = true ∧ t.1.length = 2 ∧ allDigits t.2.1 = true ∧
                t.2.1.length = 2 ∧ allDigits t.2.2 = true ∧ t.2.2.length = 4)
              (fun l t ht => by obtain ⟨d0, m0, y0⟩ := t; exact p3At_shape l d0 m0 y0 ht)
              _ _ hp3
            rw [zfill2_of_len2 m hml, zfill2_of_len2 d hdl]
            exact iso_assemble y m d hy hyl hm hml hd hdl
          | none =>
            rw [hp3] at h
            cases hp4 : searchFirst p4At s.toList with
            | some p =>
              obtain ⟨d, ms, y⟩ := p
              rw [hp4] at h
              simp only at h
              cases hm : monthNum ms with
              | some m =>
                rw [hm] at h
                injection h with h
                subst h
                obtain ⟨hdd, hdl, hy, hyl⟩ := searchFirst_prop p4At
                  (fun t => allDigits t.1 = true ∧ (t.1.length = 1 ∨ t.1.length = 2) ∧
                    allDigits t.2.2 = true ∧ t.2.2.length = 4)
                  (fun l t ht => by obtain ⟨d0, m0, y0⟩ := t; exact p4At_shape l d0 m0 y0 ht)
                  _ _ hp4
                obtain ⟨hr1, hr2⟩ := monthNum_range ms m hm
                obtain ⟨hmz, hmzl⟩ := month_zfill m hr1 hr2
                obtain ⟨hdz, hdzl⟩ := zfill2_digits d hdd hdl
                exact iso_assemble y _ _ hy hyl hmz hmzl hdz hdzl
              | none => rw [hm] at h; exact absurd h (by simp)
            | none => rw [hp4] at h; exact absurd h (by simp)
  refine ⟨hiso, ?_⟩
  obtain ⟨hsearch, hne1, hne2⟩ := iso_selfmatch r hiso
  unfold normalize_date
  rw [if_neg (by simp [hne1, hne2]), hsearch]

/-- `normalize_date` returns `None` exactly on the fall-through condition:
no match for patterns 1-3 and the leftmost pattern-4 match (if any) has an
unrecognized month. -/
theorem normalize_date_none_iff (s : String) :
    normalize_date s = none ↔ dateFallthrough s = true := by
  by_cases hnull : s = "" ∨ s = "null"
  · constructor
    · intro _
      rcases hnull with h | h <;> subst h <;> decide
    · intro _
      unfold normalize_date
      rw [if_pos (by simp [hnull])]
  · unfold normalize_date dateFallthrough
    rw [if_neg (by simpa using hnull)]
    cases hp1 : searchFirst p1At s.toList with
    | some g0 => simp [hp1]
    | none =>
      cases hp2 : searchFirst p2At s.toList with
      | some p => obtain ⟨d, m, y⟩ := p; simp [hp1, hp2]
      | none =>
        cases hp3 : searchFirst p3At s.toList with
        | some p => obtain ⟨d, m, y⟩ := p; simp [hp1, hp2, hp3]
        | none =>
          cases hp4 : searchFirst p4At s.toList with
          | some p =>
            obtain ⟨d, ms, y⟩ := p
            cases hm : monthNum ms with
            | some m => simp [hp1, hp2, hp3, hp4, hm]
            | none => simp [hp1, hp2, hp3, hp4, hm]
          | none => simp [hp1, hp2, hp3, hp4]

/-- C5 (amended): every non-absent result of `normalize_date` is a string
in YYYY-MM-DD form on which `normalize_date` is idempotent; the result is
absent exactly when no position matches patterns 1-3 and the leftmost
match of the D-Month-YYYY pattern, if any, has an unrecognized month name;
consequently every input outside that fall-through condition — in
particular one whose leftmost month-name match is recognized, or one
matching patterns 1-3 anywhere — yields a YYYY-MM-DD result. -/
theorem c5_normalize_date (s : String) :
    (∀ r, normalize_date s = some r → isISOform r = true ∧ normalize_date r = some r) ∧
    (normalize_date s = none ↔ dateFallthrough s = true) ∧
    (dateFallthrough s = false →
      ∃ r, normalize_date s = some r ∧ isISOform r = true ∧ normalize_date r = some r) := by
  refine ⟨fun r h => normalize_date_some s r h, normalize_date_none_iff s, ?_⟩
  intro hft
  cases hn : normalize_date s with
  | none =>
    have := (normalize_date_none_iff s).mp hn
    rw [hft] at this
    exact absurd this (by simp)
  | some r =>
    obtain ⟨h1, h2⟩ := normalize_date_some s r hn
    exact ⟨r, rfl, h1, h2⟩

/-- C5 counterexample: `"1 Qqq 2020, 2 Jan 2021"` matches the
D-Month-YYYY pattern with the recognized month name `Jan`, yet
`normalize_date` returns `None`, because the leftmost match of that
pattern has the unrecognized month `Qqq` and the failed strptime call
falls through past the last pattern. -/
theorem c5_counterexample :
    matchesClaimPattern cxDateInput = true ∧ normalize_date cxDateInput = none :=
  ⟨by decide, by decide⟩

/-- Witness for C5 on a concrete DD/MM/YYYY input. -/
theorem c5_witness :
    isISOform "2023-08-15" = true ∧ normalize_date "2023-08-15" = some "2023-08-15" :=
  (c5_normalize_date "15/08/2023").1 "2023-08-15" (by decide)

end ProcurePilot
